import Mathlib

/-
Verification of the EnergyDrum Nanoleaf plugin (AuroraPlugin.cpp).

The C source is shallowly embedded: the float arithmetic of the plugin is
modelled exactly over the rationals (and over the reals where a square root
occurs), C int values are modelled as integers, C casts from float to int are
modelled as truncation toward zero, and the static mutable state of the
plugin (the source pool with its rotation index and counter, and the
orchestrator accumulators) is threaded explicitly.  The calls to drand48 are
modelled by passing the drawn value in [0,1) as an explicit argument.
-/

namespace EnergyDrum

/-- MAX_SOURCES from the source: capacity of the light-source pool. -/
def MAX_SOURCES : ℕ := 15

/-- ENERGY_THRESHOLD from the source. -/
def ENERGY_THRESHOLD : ℕ := 50000

/-- MAX_DIFFUSION_AGE from the source (15.0). -/
def MAX_DIFFUSION_AGE : ℚ := 15

/-- MIN_SIMULTANEOUS_COLOURS from the source. -/
def MIN_SIMULTANEOUS_COLOURS : ℕ := 2

/-- N_FFT_BINS from the source. -/
def N_FFT_BINS : ℕ := 32

/-- BEAT_COUNT from the source. -/
def BEAT_COUNT : ℕ := 8

/-- FRACTION_COLOUR_TO_KEEP from the source (0.05). -/
def FRACTION_COLOUR_TO_KEEP : ℚ := 1/20

/-- A C cast from a float value to int truncates toward zero. -/
def ctrunc (q : ℚ) : ℤ := if q < 0 then -⌊-q⌋ else ⌊q⌋

/-- One palette entry (RGB_t): three int channels. -/
structure RGBc where
  R : ℤ
  G : ℤ
  B : ℤ
deriving DecidableEq, Repr

/-- The source_t record of the plugin.  The vx and vy fields are declared in
the source but never written by any plugin code; they are carried as inert
fields. -/
structure Source where
  x : ℚ
  y : ℚ
  vx : ℚ
  vy : ℚ
  diffusion_age : ℚ
  R : ℤ
  G : ℤ
  B : ℤ
  intensity : ℚ
  speed : ℚ
  energy : ℕ
deriving DecidableEq, Repr

/-- The mutable pool state of the plugin: the sources array together with the
static locals r (rotation panel index) and count (rotation counter) of
addSource. -/
structure PoolState where
  sources : List Source
  r : ℤ
  count : ℕ
deriving DecidableEq, Repr

/-- The initial pool: empty, with the static locals r = 0 and count = 0. -/
def initPool : PoolState := ⟨[], 0, 0⟩

/-- The getRGB palette interpolation of the source.  An empty palette yields
half white, a single stop is returned unconditionally, an index at most 0
yields stop 0, an index whose truncation is below the last stop is linearly
interpolated, and anything above clamps to the last stop.  Channel results
are truncated to int exactly as the C casts do. -/
def getRGB (pal : List RGBc) (colour : ℚ) : ℤ × ℤ × ℤ :=
  if pal.length = 0 then
    (128, 128, 128)
  else if pal.length = 1 then
    ((pal.getD 0 ⟨0,0,0⟩).R, (pal.getD 0 ⟨0,0,0⟩).G, (pal.getD 0 ⟨0,0,0⟩).B)
  else
    let idx : ℤ := ctrunc colour
    let fraction : ℚ := colour - (idx : ℚ)
    if colour ≤ 0 then
      ((pal.getD 0 ⟨0,0,0⟩).R, (pal.getD 0 ⟨0,0,0⟩).G, (pal.getD 0 ⟨0,0,0⟩).B)
    else if idx < (pal.length : ℤ) - 1 then
      let s1 := pal.getD idx.toNat ⟨0,0,0⟩
      let s2 := pal.getD (idx.toNat + 1) ⟨0,0,0⟩
      (ctrunc ((1 - fraction) * (s1.R : ℚ) + fraction * (s2.R : ℚ)),
       ctrunc ((1 - fraction) * (s1.G : ℚ) + fraction * (s2.G : ℚ)),
       ctrunc ((1 - fraction) * (s1.B : ℚ) + fraction * (s2.B : ℚ)))
    else
      ((pal.getD (pal.length - 1) ⟨0,0,0⟩).R,
       (pal.getD (pal.length - 1) ⟨0,0,0⟩).G,
       (pal.getD (pal.length - 1) ⟨0,0,0⟩).B)

/-- The panel centroid addSource reads for the current rotation index r.  The
source indexes panels[r] directly; a negative r (possible through the random
rotation formula, flagged in the spec as a defect whose defensive guard is to
clamp into range) is clamped to 0 here, and an index past the end yields the
origin. -/
def spawnPos (layout : List (ℚ × ℚ)) (st : PoolState) : ℚ × ℚ :=
  layout.getD st.r.toNat (0, 0)

/-- The rotation formula of addSource: r = (int)(drand48() * nPanels - 1),
with u the drawn value in [0,1). -/
def freshIdx (u : ℚ) (nPanels : ℕ) : ℤ := ctrunc (u * (nPanels : ℚ) - 1)

/-- removeSource of the plugin: drop the entry at idx, shifting later entries
down (the memmove); the count decreases by one. -/
def removeSource (l : List Source) (idx : ℕ) : List Source :=
  l.take idx ++ l.drop (idx + 1)

/-- The insertion index computed by the downward for loop of addSource: start
at nSources and walk down while the entry below has strictly greater
intensity, stopping at the first index whose predecessor has intensity at
most the new one.  The result counts the trailing run of entries with
strictly greater intensity. -/
def insertSlot (intensity : ℚ) (l : List Source) : ℕ :=
  l.length - (l.reverse.takeWhile (fun s => decide (intensity < s.intensity))).length

/-- Insertion by memmove: shift the entries from position i up and write the
new entry at i. -/
def insertAt (i : ℕ) (s : Source) (l : List Source) : List Source :=
  l.take i ++ s :: l.drop i

/-- Update the list entry at an index in place (the merge branch mutates
sources[i] through the array). -/
def modifyAt (f : Source → Source) : ℕ → List Source → List Source
  | _, [] => []
  | 0, s :: rest => f s :: rest
  | j + 1, s :: rest => s :: modifyAt f j rest

/-- The rotation counter update at the top of addSource: count is
incremented, and once it reaches BEAT_COUNT a fresh random panel index is
drawn and the counter resets. -/
def rotate (layout : List (ℚ × ℚ)) (u : ℚ) (st : PoolState) : ℤ × ℕ :=
  if BEAT_COUNT ≤ st.count + 1 then (freshIdx u layout.length, 0)
  else (st.r, st.count + 1)

/-- The capacity eviction of addSource: when the pool is at MAX_SOURCES the
source at index 0 is removed before anything else happens. -/
def evictIfFull (l : List Source) : List Source :=
  if MAX_SOURCES ≤ l.length then removeSource l 0 else l

/-- The merge test of addSource: exact equality of both position
coordinates. -/
def spawnMatch (pos : ℚ × ℚ) (s : Source) : Bool :=
  decide (s.x = pos.1 ∧ s.y = pos.2)

/-- The merge branch mutation of addSource: reset the diffusion age and
overwrite intensity and speed, leaving everything else untouched. -/
def mergeUpd (intensity speed : ℚ) (s : Source) : Source :=
  { s with diffusion_age := 0, intensity := intensity, speed := speed }

/-- The fresh source built by the insertion branch of addSource: colour
resolved through getRGB and scaled by the intensity with int truncation,
age zero, velocity fields never written by the plugin. -/
def newSource (pos : ℚ × ℚ) (pal : List RGBc)
    (colour intensity speed : ℚ) (energy : ℕ) : Source :=
  let rgb := getRGB pal colour
  { x := pos.1, y := pos.2, vx := 0, vy := 0, diffusion_age := 0,
    R := ctrunc ((rgb.1 : ℚ) * intensity),
    G := ctrunc ((rgb.2.1 : ℚ) * intensity),
    B := ctrunc ((rgb.2.2 : ℚ) * intensity),
    intensity := intensity, speed := speed, energy := energy }

/-- The addSource operation of the plugin, state threaded explicitly.
Following the source line by line: read the spawn position from the current
rotation index, advance the rotation counter (choosing a fresh random panel
once it reaches BEAT_COUNT), evict index 0 when the pool is at capacity,
then either merge into a source already at the exact spawn position or
insert a fresh source at the slot keeping the trailing run of
strictly-greater-intensity entries above it; meeting the energy threshold
forces the rotation counter to BEAT_COUNT in the insertion branch. -/
def addSource (layout : List (ℚ × ℚ)) (pal : List RGBc)
    (colour intensity speed : ℚ) (energy : ℕ) (u : ℚ) (st : PoolState) :
    PoolState :=
  let pos := spawnPos layout st
  let rc := rotate layout u st
  let l₁ := evictIfFull st.sources
  match l₁.findIdx? (spawnMatch pos) with
  | some j =>
      { sources := modifyAt (mergeUpd intensity speed) j l₁,
        r := rc.1, count := rc.2 }
  | none =>
      { sources := insertAt (insertSlot intensity l₁)
          (newSource pos pal colour intensity speed energy) l₁,
        r := rc.1,
        count := if ENERGY_THRESHOLD ≤ energy then BEAT_COUNT else rc.2 }

/-- The aging step of diffuseSources: each source ages by its own speed. -/
def ageStep (s : Source) : Source :=
  { s with diffusion_age := s.diffusion_age + s.speed }

/-- The removal loop of diffuseSources: walk the list and remove every entry
whose diffusion age exceeds MAX_DIFFUSION_AGE, re-checking the index that
shifted into place (the i decrement of the source). -/
def pruneLoop : List Source → List Source
  | [] => []
  | s :: rest =>
      if MAX_DIFFUSION_AGE < s.diffusion_age then pruneLoop rest
      else s :: pruneLoop rest

/-- diffuseSources of the plugin: age every source by its speed, then, only
when the population exceeds MIN_SIMULTANEOUS_COLOURS, run the removal loop. -/
def diffuseSources (l : List Source) : List Source :=
  let aged := l.map ageStep
  if MIN_SIMULTANEOUS_COLOURS < aged.length then pruneLoop aged else aged

/-- One call of addSource, for reasoning about sequences of calls. -/
structure AddCall where
  colour : ℚ
  intensity : ℚ
  speed : ℚ
  energy : ℕ
  u : ℚ
deriving DecidableEq, Repr

/-- Run a sequence of addSource calls against a pool state. -/
def runAdds (layout : List (ℚ × ℚ)) (pal : List RGBc)
    (calls : List AddCall) (st : PoolState) : PoolState :=
  calls.foldl
    (fun st c => addSource layout pal c.colour c.intensity c.speed c.energy c.u st)
    st

/-- The audio-feature readings consumed by one tick of getPluginFrame,
together with the values drawn by the two possible drand48 calls of the tick
(the onset colour draw and the rotation draw inside addSource). -/
structure Inputs where
  fftBins : List ℕ
  energy : ℕ
  isBeat : Bool
  isOnset : Bool
  tempo : ℤ
  uColour : ℚ
  uPanel : ℚ
deriving Repr

/-- The static locals of getPluginFrame together with the pool. -/
structure OrchState where
  pool : PoolState
  maxBinIndexSum : ℤ
  n : ℤ
deriving Repr

/-- The initial orchestrator state: static ints start at zero and the pool is
empty. -/
def initOrch : OrchState := ⟨initPool, 0, 0⟩

/-- The strongest-bin scan of getPluginFrame: maxBin starts at 0 and is
replaced only on a strictly greater magnitude, so the first index attaining
the maximum wins and an all-zero spectrum yields index 0. -/
def maxBinIndexOf (bins : List ℕ) : ℕ :=
  (bins.enum.foldl (fun acc p => if acc.1 < p.2 then (p.2, p.1) else acc) (0, 0)).2

/-- The divisor used by the beat branch of getPluginFrame: n is incremented
before the branch is evaluated, so the division maxBinIndexSum / n on a beat
tick divides by the incoming n plus one. -/
def beatDivisor (st : OrchState) : ℤ := st.n + 1

/-- The pool after the event branches of one getPluginFrame tick: a beat
spawns a source whose colour comes from the average dominant bin and whose
speed argument is the literal 1.5 of the call site (the tempo-derived speed
variable is computed by the source but not passed), an onset spawns a dimmer
random-coloured source, otherwise the pool is untouched.  C int division is
truncating (Int.tdiv). -/
def eventPool (layout : List (ℚ × ℚ)) (pal : List RGBc)
    (inp : Inputs) (st : OrchState) : PoolState :=
  let maxBinIndex : ℕ := maxBinIndexOf inp.fftBins
  let sum₁ : ℤ := st.maxBinIndexSum + (maxBinIndex : ℤ)
  if inp.isBeat then
    let avg : ℤ := Int.tdiv sum₁ (beatDivisor st)
    let colour : ℤ := Int.tdiv (avg * (pal.length : ℤ)) (Int.tdiv (N_FFT_BINS : ℤ) 4)
    let speed : ℚ := max (1/5) ((inp.tempo : ℚ) / 50)
    addSource layout pal (colour : ℚ) 1 (3/2) inp.energy inp.uPanel st.pool
  else if inp.isOnset then
    addSource layout pal (inp.uColour * ((pal.length : ℤ) - 1 : ℤ)) (7/10) (4/5)
      inp.energy inp.uPanel st.pool
  else
    st.pool

/-- The state update of one getPluginFrame tick: accumulate the dominant bin
index and bump n, run the event branches, and diffuse the pool after
rendering.  The beat branch resets both accumulators after its division. -/
def tickState (layout : List (ℚ × ℚ)) (pal : List RGBc)
    (inp : Inputs) (st : OrchState) : OrchState :=
  let maxBinIndex : ℕ := maxBinIndexOf inp.fftBins
  let sum₁ : ℤ := st.maxBinIndexSum + (maxBinIndex : ℤ)
  let pool₁ := eventPool layout pal inp st
  { pool := { pool₁ with sources := diffuseSources pool₁.sources },
    maxBinIndexSum := if inp.isBeat then 0 else sum₁,
    n := if inp.isBeat then 0 else beatDivisor st }

/-- Run a sequence of ticks from a state. -/
def runTicks (layout : List (ℚ × ℚ)) (pal : List RGBc)
    (inps : List Inputs) (st : OrchState) : OrchState :=
  inps.foldl (fun st inp => tickState layout pal inp st) st

/-- The cartesian distance helper of the source, over the reals. -/
noncomputable def distance (x1 y1 x2 y2 : ℚ) : ℝ :=
  Real.sqrt (((x2 : ℝ) - (x1 : ℝ)) * ((x2 : ℝ) - (x1 : ℝ)) +
    ((y2 : ℝ) - (y1 : ℝ)) * ((y2 : ℝ) - (y1 : ℝ)))

/-- A C cast from a real value to int: truncation toward zero. -/
noncomputable def rtrunc (x : ℝ) : ℤ := if x < 0 then -(⌊-x⌋) else ⌊x⌋

/-- The HSV record of the colour utilities (int fields).

Modelled from the spec: the RGBtoHSV and HSVtoRGB routines live in the
external ColorUtils collaborator whose code is not part of this repository;
the spec describes the render step only as converting the blended colour to
hue-saturation-value and back.  They are modelled here by the standard
integer hue-saturation-value conversion on 0..255 channels with hue in
degrees. -/
structure HSVc where
  H : ℤ
  S : ℤ
  V : ℤ
deriving DecidableEq, Repr

/-- Modelled from the spec: standard integer RGB to HSV conversion (value is
the maximum channel, saturation scaled to 0..255, hue in [0,360)); the
ColorUtils source is external to the repository. -/
def rgbToHsv (R G B : ℤ) : HSVc :=
  let V := max R (max G B)
  let m := min R (min G B)
  let delta := V - m
  let S := if V = 0 then 0 else 255 * delta / V
  let H :=
    if delta = 0 then 0
    else if V = R then (60 * (G - B) / delta + 360) % 360
    else if V = G then 60 * (B - R) / delta + 120
    else 60 * (R - G) / delta + 240
  ⟨H, S, V⟩

/-- Modelled from the spec: standard integer HSV to RGB conversion; the
ColorUtils source is external to the repository. -/
def hsvToRgb (h : HSVc) : ℤ × ℤ × ℤ :=
  if h.S = 0 then (h.V, h.V, h.V)
  else
    let region := h.H / 60
    let rem := h.H % 60
    let p := h.V * (255 - h.S) / 255
    let q := h.V * (255 * 60 - h.S * rem) / (255 * 60)
    let t := h.V * (255 * 60 - h.S * (60 - rem)) / (255 * 60)
    if region = 0 then (h.V, t, p)
    else if region = 1 then (q, h.V, p)
    else if region = 2 then (p, h.V, t)
    else if region = 3 then (p, q, h.V)
    else if region = 4 then (t, p, h.V)
    else (h.V, p, q)

/-- The per-source blend factor of the renderPanel loop: the energetic
branch tightens with age and clamps into [0,1], the ordinary branch decays
with distance only; then the age fade applies and the factor is floored at
FRACTION_COLOUR_TO_KEEP. -/
noncomputable def decayFactor (d : ℝ) (s : Source) : ℝ :=
  let f₀ : ℝ :=
    if ENERGY_THRESHOLD ≤ s.energy then
      let d2 : ℝ := d * 0.015 - (s.diffusion_age : ℝ) * 0.2
      let d2c : ℝ := if d2 < 0 then 0 else d2
      let fe : ℝ := 1 / (d2c * 2 + 1)
      let fe₁ : ℝ := if 1 < fe then 1 else fe
      if fe₁ < 0 then 0 else fe₁
    else 1 / (d * 0.008 + 1)
  let f₁ : ℝ :=
    if (MAX_DIFFUSION_AGE : ℝ) ≤ (s.diffusion_age : ℝ) then 0
    else f₀ * (1 - (s.diffusion_age : ℝ) / (MAX_DIFFUSION_AGE : ℝ))
  if f₁ < (FRACTION_COLOUR_TO_KEEP : ℝ) then (FRACTION_COLOUR_TO_KEEP : ℝ) else f₁

/-- The hue and value perturbation at the end of each renderPanel loop
iteration: convert to HSV, shift the hue by the distance-derived offset
modulo 360, bump the value by 10 modulo 360 (the source applies the modulo
to the value channel as well), convert back.  C int modulo on the
non-negative operands reached here agrees with Int.tmod. -/
def hueShift (d_factor : ℤ) (R G B : ℤ) : ℤ × ℤ × ℤ :=
  let hsv := rgbToHsv R G B
  hsvToRgb ⟨Int.tmod (hsv.H + d_factor) 360, hsv.S, Int.tmod (hsv.V + 10) 360⟩

/-- One iteration of the renderPanel source loop: compute the distance decay
factor, blend the source colour into the working colour per channel with no
clamping, then push the truncated channels through the hue and value
perturbation; the result is the new working colour. -/
noncomputable def blendStep (px py : ℚ) (c : ℝ × ℝ × ℝ) (s : Source) :
    ℝ × ℝ × ℝ :=
  let d : ℝ := distance px py s.x s.y
  let f : ℝ := decayFactor d s
  let R : ℝ := c.1 * (1 - f) + (s.R : ℝ) * f
  let G : ℝ := c.2.1 * (1 - f) + (s.G : ℝ) * f
  let B : ℝ := c.2.2 * (1 - f) + (s.B : ℝ) * f
  let rgb := hueShift (rtrunc (d * 0.10)) (rtrunc R) (rtrunc G) (rtrunc B)
  ((rgb.1 : ℝ), (rgb.2.1 : ℝ), (rgb.2.2 : ℝ))

/-- renderPanel of the plugin: fold every source of the pool in order into
the base colour, truncate the accumulated channels to int, and clamp each
final channel above at 255 (the source clamps only the upper bound). -/
noncomputable def renderPanel (px py : ℚ) (l : List Source) : ℤ × ℤ × ℤ :=
  let c := l.foldl (blendStep px py) ((0 : ℝ), (0 : ℝ), (0 : ℝ))
  let R := rtrunc c.1
  let G := rtrunc c.2.1
  let B := rtrunc c.2.2
  (if 255 < R then 255 else R,
   if 255 < G then 255 else G,
   if 255 < B then 255 else B)

/-- getPluginFrame of the plugin as a function: the frame buffer renders
every panel against the pool as it stands after the event branches and
before diffusion, and the returned state is the tick update. -/
noncomputable def getPluginFrame (layout : List (ℚ × ℚ)) (pal : List RGBc)
    (inp : Inputs) (st : OrchState) : OrchState × List (ℤ × ℤ × ℤ) :=
  (tickState layout pal inp st,
   layout.map (fun p => renderPanel p.1 p.2 (eventPool layout pal inp st).sources))

/-! ## Helper lemmas -/

theorem ctrunc_of_nonneg {q : ℚ} (h : 0 ≤ q) : ctrunc q = ⌊q⌋ := by
  unfold ctrunc
  rw [if_neg (not_lt.2 h)]

theorem ctrunc_nonneg {q : ℚ} (h : 0 ≤ q) : 0 ≤ ctrunc q := by
  rw [ctrunc_of_nonneg h]
  exact Int.floor_nonneg.2 h

/-- Claim C5: the palette interpolator returns (128,128,128) on an empty
palette; the single stop for any input on a one-stop palette; stop 0 when
the colour index is at most 0; the last stop when the floor of the colour
index is at least nStops - 1; and otherwise the per-channel truncation of
(1-frac)*C[idx] + frac*C[idx+1] with idx the floor of the colour index and
frac its fractional part. -/
theorem claim_C5 (pal : List RGBc) (colour : ℚ) :
    (pal.length = 0 → getRGB pal colour = (128, 128, 128)) ∧
    (pal.length = 1 →
      getRGB pal colour =
        ((pal.getD 0 ⟨0,0,0⟩).R, (pal.getD 0 ⟨0,0,0⟩).G, (pal.getD 0 ⟨0,0,0⟩).B)) ∧
    (2 ≤ pal.length → colour ≤ 0 →
      getRGB pal colour =
        ((pal.getD 0 ⟨0,0,0⟩).R, (pal.getD 0 ⟨0,0,0⟩).G, (pal.getD 0 ⟨0,0,0⟩).B)) ∧
    (2 ≤ pal.length → (pal.length : ℤ) - 1 ≤ ⌊colour⌋ →
      getRGB pal colour =
        ((pal.getD (pal.length - 1) ⟨0,0,0⟩).R,
         (pal.getD (pal.length - 1) ⟨0,0,0⟩).G,
         (pal.getD (pal.length - 1) ⟨0,0,0⟩).B)) ∧
    (2 ≤ pal.length → 0 < colour → ⌊colour⌋ < (pal.length : ℤ) - 1 →
      getRGB pal colour =
        (ctrunc ((1 - (colour - (⌊colour⌋ : ℚ))) * ((pal.getD ⌊colour⌋.toNat ⟨0,0,0⟩).R : ℚ) +
            (colour - (⌊colour⌋ : ℚ)) * ((pal.getD (⌊colour⌋.toNat + 1) ⟨0,0,0⟩).R : ℚ)),
         ctrunc ((1 - (colour - (⌊colour⌋ : ℚ))) * ((pal.getD ⌊colour⌋.toNat ⟨0,0,0⟩).G : ℚ) +
            (colour - (⌊colour⌋ : ℚ)) * ((pal.getD (⌊colour⌋.toNat + 1) ⟨0,0,0⟩).G : ℚ)),
         ctrunc ((1 - (colour - (⌊colour⌋ : ℚ))) * ((pal.getD ⌊colour⌋.toNat ⟨0,0,0⟩).B : ℚ) +
            (colour - (⌊colour⌋ : ℚ)) * ((pal.getD (⌊colour⌋.toNat + 1) ⟨0,0,0⟩).B : ℚ)))) := by
  refine ⟨?_, ?_, ?_, ?_, ?_⟩
  · intro h
    unfold getRGB
    rw [if_pos h]
  · intro h
    unfold getRGB
    rw [if_neg (by omega), if_pos h]
  · intro hlen hc
    unfold getRGB
    rw [if_neg (by omega), if_neg (by omega)]
    simp only [if_pos hc]
  · intro hlen hfloor
    have hc : (0 : ℚ) < colour := by
      have h1 : (1 : ℤ) ≤ ⌊colour⌋ := by omega
      have := Int.le_floor.1 h1
      push_cast at this
      linarith
    have htr : ctrunc colour = ⌊colour⌋ := ctrunc_of_nonneg hc.le
    unfold getRGB
    rw [if_neg (by omega), if_neg (by omega)]
    simp only [if_neg (not_le.2 hc), htr, if_neg (not_lt.2 hfloor)]
  · intro hlen hc hfloor
    have htr : ctrunc colour = ⌊colour⌋ := ctrunc_of_nonneg hc.le
    unfold getRGB
    rw [if_neg (by omega), if_neg (by omega)]
    simp only [if_neg (not_le.2 hc), htr, if_pos hfloor]

/-- Witness for C5: interpolating a two-stop palette at 1/2 lands in the
interior interpolation clause. -/
theorem claim_C5_witness :
    getRGB [(⟨255, 0, 0⟩ : RGBc), ⟨0, 255, 0⟩] (1/2) =
      (ctrunc ((1 - ((1/2 : ℚ) - (⌊(1/2 : ℚ)⌋ : ℚ))) *
          (([(⟨255, 0, 0⟩ : RGBc), ⟨0, 255, 0⟩].getD ⌊(1/2 : ℚ)⌋.toNat ⟨0,0,0⟩).R : ℚ) +
          ((1/2 : ℚ) - (⌊(1/2 : ℚ)⌋ : ℚ)) *
          (([(⟨255, 0, 0⟩ : RGBc), ⟨0, 255, 0⟩].getD (⌊(1/2 : ℚ)⌋.toNat + 1) ⟨0,0,0⟩).R : ℚ)),
       ctrunc ((1 - ((1/2 : ℚ) - (⌊(1/2 : ℚ)⌋ : ℚ))) *
          (([(⟨255, 0, 0⟩ : RGBc), ⟨0, 255, 0⟩].getD ⌊(1/2 : ℚ)⌋.toNat ⟨0,0,0⟩).G : ℚ) +
          ((1/2 : ℚ) - (⌊(1/2 : ℚ)⌋ : ℚ)) *
          (([(⟨255, 0, 0⟩ : RGBc), ⟨0, 255, 0⟩].getD (⌊(1/2 : ℚ)⌋.toNat + 1) ⟨0,0,0⟩).G : ℚ)),
       ctrunc ((1 - ((1/2 : ℚ) - (⌊(1/2 : ℚ)⌋ : ℚ))) *
          (([(⟨255, 0, 0⟩ : RGBc), ⟨0, 255, 0⟩].getD ⌊(1/2 : ℚ)⌋.toNat ⟨0,0,0⟩).B : ℚ) +
          ((1/2 : ℚ) - (⌊(1/2 : ℚ)⌋ : ℚ)) *
          (([(⟨255, 0, 0⟩ : RGBc), ⟨0, 255, 0⟩].getD (⌊(1/2 : ℚ)⌋.toNat + 1) ⟨0,0,0⟩).B : ℚ))) :=
  (claim_C5 [⟨255, 0, 0⟩, ⟨0, 255, 0⟩] (1/2)).2.2.2.2 (by norm_num) (by norm_num)
    (by norm_num)

theorem pruneLoop_eq_filter (l : List Source) :
    pruneLoop l = l.filter (fun s => decide (s.diffusion_age ≤ MAX_DIFFUSION_AGE)) := by
  induction l with
  | nil => rfl
  | cons s rest ih =>
      unfold pruneLoop
      by_cases h : MAX_DIFFUSION_AGE < s.diffusion_age
      · rw [if_pos h, ih, List.filter_cons_of_neg (by simpa using h)]
      · rw [if_neg h, ih, List.filter_cons_of_pos (by simpa using not_lt.1 h)]

/-- Claim C6: a diffuseSources call ages every source by its own speed; then
the sources whose age strictly exceeds 15 are removed exactly when the
population after aging exceeds 2, and no source at all is removed when the
population is at most 2. -/
theorem claim_C6 (l : List Source) :
    (∀ i (h : i < l.length),
      ((l.map ageStep).get ⟨i, by simpa using h⟩).diffusion_age
        = (l.get ⟨i, h⟩).diffusion_age + (l.get ⟨i, h⟩).speed) ∧
    (MIN_SIMULTANEOUS_COLOURS < l.length →
      diffuseSources l = (l.map ageStep).filter
        (fun s => decide (s.diffusion_age ≤ MAX_DIFFUSION_AGE))) ∧
    (l.length ≤ MIN_SIMULTANEOUS_COLOURS → diffuseSources l = l.map ageStep) := by
  refine ⟨?_, ?_, ?_⟩
  · intro i h
    simp [ageStep]
  · intro h
    unfold diffuseSources
    rw [if_pos (by simpa using h), pruneLoop_eq_filter]
  · intro h
    unfold diffuseSources
    rw [if_neg (by simpa using not_lt.2 h)]

/-- A concrete light source used in the concrete test states below. -/
def testSrc (x inten age sp : ℚ) : Source :=
  ⟨x, 0, 0, 0, age, 0, 0, 0, inten, sp, 0⟩

/-- Witness for C6: a three-source pool exceeds the floor, so pruning is the
filter of the aged pool. -/
theorem claim_C6_witness :
    MIN_SIMULTANEOUS_COLOURS < ([testSrc 1 1 14 2, testSrc 2 1 1 1,
        testSrc 3 1 14 2] : List Source).length ∧
    diffuseSources [testSrc 1 1 14 2, testSrc 2 1 1 1, testSrc 3 1 14 2] =
      (([testSrc 1 1 14 2, testSrc 2 1 1 1, testSrc 3 1 14 2] : List Source).map
        ageStep).filter (fun s => decide (s.diffusion_age ≤ MAX_DIFFUSION_AGE)) :=
  ⟨by norm_num [MIN_SIMULTANEOUS_COLOURS],
   (claim_C6 [testSrc 1 1 14 2, testSrc 2 1 1 1, testSrc 3 1 14 2]).2.1
     (by norm_num [MIN_SIMULTANEOUS_COLOURS])⟩

/-- A pool of three expired-on-aging sources: above the floor, so the prune
loop runs and removes every one of them. -/
def poolC7 : List Source := [testSrc 1 1 14 2, testSrc 2 1 14 2, testSrc 3 1 14 2]

/-- Counterexample to C7: the population floor is checked once before the
removal loop, so a pool of three sources, all of which exceed the maximum
age after aging, is pruned to empty even though it started non-empty. -/
theorem claim_C7_counterexample :
    poolC7 ≠ [] ∧ diffuseSources poolC7 = [] := by
  constructor
  · simp [poolC7]
  · norm_num [poolC7, diffuseSources, pruneLoop, ageStep, testSrc,
      MIN_SIMULTANEOUS_COLOURS, MAX_DIFFUSION_AGE]

/-- Claim C7, amended: a non-empty pool is still non-empty after
diffuseSources provided its population is at most the floor of 2 (the floor
suppresses pruning entirely); a pool above the floor can be pruned to empty
when every source has expired. -/
theorem claim_C7_amended (l : List Source) (hne : l ≠ [])
    (hlen : l.length ≤ MIN_SIMULTANEOUS_COLOURS) : diffuseSources l ≠ [] := by
  unfold diffuseSources
  rw [if_neg (by simpa using not_lt.2 hlen)]
  simpa using hne

/-- Witness for C7: a single expired source is kept because the pool is at
the floor. -/
theorem claim_C7_witness :
    ([testSrc 1 1 20 1] : List Source) ≠ [] ∧
    ([testSrc 1 1 20 1] : List Source).length ≤ MIN_SIMULTANEOUS_COLOURS ∧
    diffuseSources [testSrc 1 1 20 1] ≠ [] :=
  ⟨by simp, by norm_num [MIN_SIMULTANEOUS_COLOURS],
   claim_C7_amended [testSrc 1 1 20 1] (by simp)
     (by norm_num [MIN_SIMULTANEOUS_COLOURS])⟩

/-- A two-stop palette for the concrete ticks below. -/
def palT : List RGBc := [⟨255, 0, 0⟩, ⟨0, 255, 0⟩]

/-- A one-panel layout for the concrete ticks below. -/
def layT : List (ℚ × ℚ) := [(0, 0)]

/-- A beat tick with tempo 100 and a silent spectrum. -/
def inpBeat : Inputs := ⟨List.replicate 32 0, 0, true, false, 100, 0, 0⟩

/-- Claim C1: the beat branch of getPluginFrame does not pass the
tempo-derived speed to addSource.  On a beat tick with tempo 100 the spec
formula max(0.2, tempo/50) yields 2, but the source spawned by the tick
carries speed 1.5: the call site passes the literal 1.5 and the computed
speed variable is dead, against the source comment that the speed depends
on the current tempo. -/
theorem claim_C1 :
    ((tickState layT palT inpBeat initOrch).pool.sources.map (fun s => s.speed))
      = [3/2] ∧
    max (1/5 : ℚ) ((100 : ℚ) / 50) = 2 ∧ (3/2 : ℚ) ≠ 2 := by
  refine ⟨rfl, by norm_num, by norm_num⟩

theorem tickState_n_nonneg (layout : List (ℚ × ℚ)) (pal : List RGBc)
    (inp : Inputs) (st : OrchState) (h : 0 ≤ st.n) :
    0 ≤ (tickState layout pal inp st).n := by
  unfold tickState beatDivisor
  dsimp only
  split
  · exact le_refl 0
  · omega

theorem runTicks_n_nonneg (layout : List (ℚ × ℚ)) (pal : List RGBc)
    (inps : List Inputs) (st : OrchState) (h : 0 ≤ st.n) :
    0 ≤ (runTicks layout pal inps st).n := by
  induction inps generalizing st with
  | nil => exact h
  | cons inp rest ih => exact ih _ (tickState_n_nonneg layout pal inp st h)

/-- Claim C10: the running sample count n is incremented before the beat
branch, so the divisor of the division maxBinIndexSum / n in the beat branch
(beatDivisor, the incoming n plus one) is strictly positive in every state
reachable by any sequence of ticks from the initial state, including the
first tick and the first tick after a beat reset. -/
theorem claim_C10 (layout : List (ℚ × ℚ)) (pal : List RGBc)
    (inps : List Inputs) :
    0 < beatDivisor (runTicks layout pal inps initOrch) := by
  have h := runTicks_n_nonneg layout pal inps initOrch (by norm_num [initOrch])
  unfold beatDivisor
  omega

theorem addSource_merge (layout : List (ℚ × ℚ)) (pal : List RGBc)
    (colour intensity speed : ℚ) (energy : ℕ) (u : ℚ) (st : PoolState) (j : ℕ)
    (hj : (evictIfFull st.sources).findIdx?
        (spawnMatch (spawnPos layout st)) = some j) :
    addSource layout pal colour intensity speed energy u st =
      { sources := modifyAt (mergeUpd intensity speed) j (evictIfFull st.sources),
        r := (rotate layout u st).1, count := (rotate layout u st).2 } := by
  unfold addSource
  dsimp only
  rw [hj]

theorem addSource_insert (layout : List (ℚ × ℚ)) (pal : List RGBc)
    (colour intensity speed : ℚ) (energy : ℕ) (u : ℚ) (st : PoolState)
    (hn : (evictIfFull st.sources).findIdx?
        (spawnMatch (spawnPos layout st)) = none) :
    addSource layout pal colour intensity speed energy u st =
      { sources := insertAt (insertSlot intensity (evictIfFull st.sources))
          (newSource (spawnPos layout st) pal colour intensity speed energy)
          (evictIfFull st.sources),
        r := (rotate layout u st).1,
        count := if ENERGY_THRESHOLD ≤ energy then BEAT_COUNT
                 else (rotate layout u st).2 } := by
  unfold addSource
  dsimp only
  rw [hn]

theorem length_modifyAt (f : Source → Source) (j : ℕ) (l : List Source) :
    (modifyAt f j l).length = l.length := by
  induction l generalizing j with
  | nil => cases j <;> rfl
  | cons s rest ih =>
      cases j with
      | zero => rfl
      | succ j => simpa [modifyAt] using ih j

theorem insertSlot_le (intensity : ℚ) (l : List Source) :
    insertSlot intensity l ≤ l.length := by
  unfold insertSlot
  omega

theorem length_insertAt {i : ℕ} (s : Source) (l : List Source)
    (h : i ≤ l.length) : (insertAt i s l).length = l.length + 1 := by
  unfold insertAt
  simp
  omega

theorem removeSource_zero (l : List Source) : removeSource l 0 = l.tail := by
  simp [removeSource, List.drop_one]

theorem addSource_length_le (layout : List (ℚ × ℚ)) (pal : List RGBc)
    (colour intensity speed : ℚ) (energy : ℕ) (u : ℚ) (st : PoolState)
    (h : st.sources.length ≤ MAX_SOURCES) :
    (addSource layout pal colour intensity speed energy u st).sources.length
      ≤ MAX_SOURCES := by
  have hM : MAX_SOURCES = 15 := rfl
  have hlen : (evictIfFull st.sources).length + 1 ≤ MAX_SOURCES := by
    unfold evictIfFull
    split
    · rw [removeSource_zero, List.length_tail]
      omega
    · omega
  cases hfind : (evictIfFull st.sources).findIdx? (spawnMatch (spawnPos layout st)) with
  | none =>
      rw [addSource_insert layout pal colour intensity speed energy u st hfind]
      dsimp only
      rw [length_insertAt _ _ (insertSlot_le _ _)]
      omega
  | some j =>
      rw [addSource_merge layout pal colour intensity speed energy u st j hfind]
      dsimp only
      rw [length_modifyAt]
      omega

/-- Claim C4: starting from the empty pool, no sequence of addSource calls
ever pushes the pool size above 15; and a call arriving with the pool at
capacity behaves exactly as the same call on the pool with the entry at
index 0 (the weakest) removed first. -/
theorem claim_C4 :
    (∀ (layout : List (ℚ × ℚ)) (pal : List RGBc) (calls : List AddCall),
      (runAdds layout pal calls initPool).sources.length ≤ MAX_SOURCES) ∧
    (∀ (layout : List (ℚ × ℚ)) (pal : List RGBc) (colour intensity speed : ℚ)
      (energy : ℕ) (u : ℚ) (st : PoolState),
      st.sources.length = MAX_SOURCES →
      addSource layout pal colour intensity speed energy u st =
        addSource layout pal colour intensity speed energy u
          { st with sources := st.sources.tail }) := by
  constructor
  · intro layout pal calls
    suffices h : ∀ (st : PoolState), st.sources.length ≤ MAX_SOURCES →
        (runAdds layout pal calls st).sources.length ≤ MAX_SOURCES by
      exact h initPool (by simp [initPool, MAX_SOURCES])
    induction calls with
    | nil => intro st h; exact h
    | cons c rest ih =>
        intro st h
        exact ih _ (addSource_length_le layout pal c.colour c.intensity c.speed
          c.energy c.u st h)
  · intro layout pal colour intensity speed energy u st hfull
    have h₁ : evictIfFull st.sources = st.sources.tail := by
      unfold evictIfFull
      rw [if_pos (le_of_eq hfull.symm), removeSource_zero]
    have h₂ : evictIfFull st.sources.tail = st.sources.tail := by
      unfold evictIfFull
      rw [if_neg]
      rw [List.length_tail, hfull]
      simp [MAX_SOURCES]
    unfold addSource spawnPos rotate
    dsimp only
    rw [h₁, h₂]

/-- A pool at full capacity with fifteen distinct sources. -/
def poolFull : PoolState := ⟨(List.range 15).map (fun k => testSrc (k : ℚ) 1 0 1), 0, 0⟩

/-- Witness for C4: a call against a full pool equals the call against the
pool with its weakest entry dropped. -/
theorem claim_C4_witness :
    poolFull.sources.length = MAX_SOURCES ∧
    addSource [] [] 0 1 1 0 0 poolFull =
      addSource [] [] 0 1 1 0 0 { poolFull with sources := poolFull.sources.tail } :=
  ⟨rfl, claim_C4.2 [] [] 0 1 1 0 0 poolFull rfl⟩

/-! ## Ordered insertion (claim C2) -/

/-- The intensity ordering of the pool. -/
def IntensityLE (a b : Source) : Prop := a.intensity ≤ b.intensity

theorem takeWhile_add_dropWhile_length (p : Source → Bool) (l : List Source) :
    (l.takeWhile p).length + (l.dropWhile p).length = l.length := by
  rw [← List.length_append, List.takeWhile_append_dropWhile]

theorem take_reverse_split (p : Source → Bool) (m : List Source) :
    m.reverse.take (m.length - (m.takeWhile p).length) = (m.dropWhile p).reverse := by
  have h1 : m.reverse = (m.dropWhile p).reverse ++ (m.takeWhile p).reverse := by
    rw [← List.reverse_append, List.takeWhile_append_dropWhile]
  rw [h1]
  refine List.take_left' ?_
  rw [List.length_reverse]
  have := takeWhile_add_dropWhile_length p m
  omega

theorem drop_reverse_split (p : Source → Bool) (m : List Source) :
    m.reverse.drop (m.length - (m.takeWhile p).length) = (m.takeWhile p).reverse := by
  have h1 : m.reverse = (m.dropWhile p).reverse ++ (m.takeWhile p).reverse := by
    rw [← List.reverse_append, List.takeWhile_append_dropWhile]
  rw [h1]
  refine List.drop_left' ?_
  rw [List.length_reverse]
  have := takeWhile_add_dropWhile_length p m
  omega

theorem insertSlot_take (intensity : ℚ) (l : List Source) :
    l.take (insertSlot intensity l) =
      (l.reverse.dropWhile (fun s => decide (intensity < s.intensity))).reverse := by
  have h := take_reverse_split (fun s => decide (intensity < s.intensity)) l.reverse
  rw [List.reverse_reverse, List.length_reverse] at h
  exact h

theorem insertSlot_drop (intensity : ℚ) (l : List Source) :
    l.drop (insertSlot intensity l) =
      (l.reverse.takeWhile (fun s => decide (intensity < s.intensity))).reverse := by
  have h := drop_reverse_split (fun s => decide (intensity < s.intensity)) l.reverse
  rw [List.reverse_reverse, List.length_reverse] at h
  exact h

theorem mem_dropWhile_le (intensity : ℚ) (m : List Source)
    (hm : List.Pairwise (fun a b => b.intensity ≤ a.intensity) m) :
    ∀ a ∈ m.dropWhile (fun s => decide (intensity < s.intensity)),
      a.intensity ≤ intensity := by
  induction m with
  | nil => intro a ha; simp at ha
  | cons t m ih =>
      intro a ha
      by_cases h : intensity < t.intensity
      · rw [List.dropWhile_cons_of_pos (by simpa using h)] at ha
        exact ih hm.tail a ha
      · rw [List.dropWhile_cons_of_neg (by simpa using h)] at ha
        rcases List.mem_cons.1 ha with rfl | ha
        · exact not_lt.1 h
        · exact le_trans (List.rel_of_pairwise_cons hm ha) (not_lt.1 h)

theorem insert_pairwise (intensity : ℚ) (nsrc : Source)
    (hns : nsrc.intensity = intensity) (l : List Source)
    (hl : List.Pairwise IntensityLE l) :
    List.Pairwise IntensityLE (insertAt (insertSlot intensity l) nsrc l) := by
  unfold insertAt
  rw [List.pairwise_append]
  have htake : l.take (insertSlot intensity l) =
      (l.reverse.dropWhile (fun s => decide (intensity < s.intensity))).reverse :=
    insertSlot_take intensity l
  have hdrop : l.drop (insertSlot intensity l) =
      (l.reverse.takeWhile (fun s => decide (intensity < s.intensity))).reverse :=
    insertSlot_drop intensity l
  have hrev : List.Pairwise (fun a b => b.intensity ≤ a.intensity) l.reverse := by
    rw [List.pairwise_reverse]
    exact hl
  have hdrop_mem : ∀ a ∈ l.drop (insertSlot intensity l), intensity ≤ a.intensity := by
    intro a ha
    rw [hdrop, List.mem_reverse] at ha
    exact le_of_lt (by simpa using List.mem_takeWhile_imp ha)
  have htake_mem : ∀ a ∈ l.take (insertSlot intensity l), a.intensity ≤ intensity := by
    intro a ha
    rw [htake, List.mem_reverse] at ha
    exact mem_dropWhile_le intensity l.reverse hrev a ha
  refine ⟨List.Pairwise.sublist (List.take_sublist _ _) hl, ?_, ?_⟩
  · constructor
    · intro b hb
      unfold IntensityLE
      rw [hns]
      exact hdrop_mem b hb
    · exact List.Pairwise.sublist (List.drop_sublist _ _) hl
  · intro a ha b hb
    rcases List.mem_cons.1 hb with rfl | hb
    · unfold IntensityLE
      rw [hns]
      exact htake_mem a ha
    · have := List.pairwise_append.1
        (by rw [List.take_append_drop (insertSlot intensity l) l]; exact hl)
      exact this.2.2 a ha b hb

/-- A two-source pool, sorted by intensity, whose stronger source sits at
the spawn position of the next call. -/
def stC2 : PoolState := ⟨[testSrc 5 (1/2) 0 1, testSrc 10 (9/10) 0 1], 1, 0⟩

/-- The two-panel layout used by the C2 counterexample; panel 1 is the
position of the stronger source of stC2. -/
def layC2 : List (ℚ × ℚ) := [(0, 0), (10, 0)]

/-- Counterexample to C2: the merge branch overwrites the matched source's
intensity with the incoming one, so an addSource call that merges a low
intensity (1/10) into the stronger source (9/10) of an ordered two-source
pool leaves the pool out of order: intensities go from [1/2, 9/10] to
[1/2, 1/10]. -/
theorem claim_C2_counterexample :
    List.Pairwise IntensityLE stC2.sources ∧
    ¬ List.Pairwise IntensityLE
        (addSource layC2 [] 0 (1/10) 1 0 0 stC2).sources := by
  constructor
  · norm_num [stC2, IntensityLE, testSrc]
  · intro h
    rw [List.pairwise_iff_get] at h
    have h2 : (addSource layC2 [] 0 (1/10) 1 0 0 stC2).sources.length = 2 := by
      norm_num [addSource, evictIfFull, removeSource, spawnPos, rotate, stC2, layC2,
        testSrc, MAX_SOURCES, BEAT_COUNT, spawnMatch, List.findIdx?, modifyAt,
        length_modifyAt]
    have := h ⟨0, by omega⟩ ⟨1, by omega⟩ (by norm_num)
    revert this
    unfold IntensityLE
    norm_num [addSource, evictIfFull, removeSource, spawnPos, rotate, stC2, layC2,
      testSrc, MAX_SOURCES, BEAT_COUNT, spawnMatch, List.findIdx?, modifyAt,
      mergeUpd]

/-- Claim C2, amended: after any addSource call that takes the insertion
branch (no live source occupies the exact spawn position after the capacity
eviction), the pool is non-decreasing by intensity provided it was so before
the call; a call that takes the merge branch can break the ordering because
it overwrites the matched source's intensity in place. -/
theorem claim_C2_amended (layout : List (ℚ × ℚ)) (pal : List RGBc)
    (colour intensity speed : ℚ) (energy : ℕ) (u : ℚ) (st : PoolState)
    (hsort : ∀ i j (hi : i < st.sources.length) (hj : j < st.sources.length),
      i < j → (st.sources.get ⟨i, hi⟩).intensity ≤ (st.sources.get ⟨j, hj⟩).intensity)
    (hins : (evictIfFull st.sources).findIdx?
        (spawnMatch (spawnPos layout st)) = none) :
    ∀ i j (hi : i < (addSource layout pal colour intensity speed energy u st).sources.length)
      (hj : j < (addSource layout pal colour intensity speed energy u st).sources.length),
      i < j →
      ((addSource layout pal colour intensity speed energy u st).sources.get ⟨i, hi⟩).intensity
        ≤ ((addSource layout pal colour intensity speed energy u st).sources.get ⟨j, hj⟩).intensity := by
  have hpw : List.Pairwise IntensityLE st.sources := by
    rw [List.pairwise_iff_get]
    intro i j hij
    exact hsort i j i.isLt j.isLt hij
  have hevict : List.Pairwise IntensityLE (evictIfFull st.sources) := by
    unfold evictIfFull
    split
    · rw [removeSource_zero]
      exact List.Pairwise.sublist (List.tail_sublist _) hpw
    · exact hpw
  have hres : List.Pairwise IntensityLE
      (addSource layout pal colour intensity speed energy u st).sources := by
    rw [addSource_insert layout pal colour intensity speed energy u st hins]
    exact insert_pairwise intensity _ rfl _ hevict
  rw [List.pairwise_iff_get] at hres
  intro i j hi hj hij
  exact hres ⟨i, hi⟩ ⟨j, hj⟩ hij

/-- Witness for C2: inserting into the empty pool through the insertion
branch keeps the (trivially) ordered pool ordered. -/
theorem claim_C2_witness :
    ((evictIfFull initPool.sources).findIdx?
        (spawnMatch (spawnPos layC2 initPool)) = none) ∧
    (∀ i j (hi : i < (addSource layC2 [] 0 1 1 0 0 initPool).sources.length)
      (hj : j < (addSource layC2 [] 0 1 1 0 0 initPool).sources.length),
      i < j →
      ((addSource layC2 [] 0 1 1 0 0 initPool).sources.get ⟨i, hi⟩).intensity
        ≤ ((addSource layC2 [] 0 1 1 0 0 initPool).sources.get ⟨j, hj⟩).intensity) :=
  ⟨rfl,
   claim_C2_amended layC2 [] 0 1 1 0 0 initPool
     (by intro i j hi; simp [initPool] at hi) rfl⟩

/-! ## Merge semantics (claim C3) -/

theorem getD_modifyAt (f : Source → Source) (j k : ℕ) (l : List Source)
    (d : Source) (hk : k < l.length) :
    (modifyAt f j l).getD k d =
      if k = j then f (l.getD k d) else l.getD k d := by
  induction l generalizing j k with
  | nil => simp at hk
  | cons s rest ih =>
      cases j with
      | zero =>
          cases k with
          | zero => simp [modifyAt]
          | succ k => simp [modifyAt]
      | succ j =>
          cases k with
          | zero => simp [modifyAt]
          | succ k =>
              have hk' : k < rest.length := by simpa using hk
              simpa [modifyAt] using ih j k hk'

/-- Claim C3, amended: an addSource call whose spawn position matches an
existing source merges into the first match (resetting its diffusion age and
overwriting its intensity and speed), keeps the pool count unchanged, evicts
nothing and leaves every other entry untouched — provided the pool is below
its capacity of 15.  At capacity the eviction of index 0 runs before the
merge check, so the count drops. -/
theorem claim_C3_amended (layout : List (ℚ × ℚ)) (pal : List RGBc)
    (colour intensity speed : ℚ) (energy : ℕ) (u : ℚ) (st : PoolState) (j : ℕ)
    (hcap : st.sources.length < MAX_SOURCES)
    (hj : st.sources.findIdx? (spawnMatch (spawnPos layout st)) = some j) :
    ((addSource layout pal colour intensity speed energy u st).sources.length
        = st.sources.length) ∧
    (∀ k (d : Source), k < st.sources.length →
      (addSource layout pal colour intensity speed energy u st).sources.getD k d =
        if k = j then mergeUpd intensity speed (st.sources.getD k d)
        else st.sources.getD k d) := by
  have hevict : evictIfFull st.sources = st.sources := by
    unfold evictIfFull
    rw [if_neg (not_le.2 hcap)]
  have hj' : (evictIfFull st.sources).findIdx?
      (spawnMatch (spawnPos layout st)) = some j := by rw [hevict]; exact hj
  have hsrc := addSource_merge layout pal colour intensity speed energy u st j hj'
  constructor
  · rw [hsrc]
    dsimp only
    rw [hevict, length_modifyAt]
  · intro k d hk
    rw [hsrc]
    dsimp only
    rw [hevict]
    exact getD_modifyAt _ j k st.sources d hk

/-- A one-panel layout whose single panel is the spawn position of the merge
test states. -/
def layW : List (ℚ × ℚ) := [(0, 0)]

/-- A one-source pool whose source sits exactly at the spawn position. -/
def stC3W : PoolState := ⟨[testSrc 0 1 5 1], 0, 0⟩

/-- Witness for C3: merging into a sub-capacity pool keeps the count and
rewrites only the matched entry. -/
theorem claim_C3_witness :
    stC3W.sources.length < MAX_SOURCES ∧
    stC3W.sources.findIdx? (spawnMatch (spawnPos layW stC3W)) = some 0 ∧
    (addSource layW [] 0 (3/4) 2 0 0 stC3W).sources.length = stC3W.sources.length ∧
    (∀ k (d : Source), k < stC3W.sources.length →
      (addSource layW [] 0 (3/4) 2 0 0 stC3W).sources.getD k d =
        if k = 0 then mergeUpd (3/4) 2 (stC3W.sources.getD k d)
        else stC3W.sources.getD k d) :=
  ⟨by norm_num [stC3W, MAX_SOURCES], rfl,
   (claim_C3_amended layW [] 0 (3/4) 2 0 0 stC3W 0
     (by norm_num [stC3W, MAX_SOURCES]) rfl).1,
   (claim_C3_amended layW [] 0 (3/4) 2 0 0 stC3W 0
     (by norm_num [stC3W, MAX_SOURCES]) rfl).2⟩

/-- A pool at full capacity whose entry at index 7 sits exactly at the spawn
position of the next call. -/
def stC3F : PoolState :=
  ⟨[testSrc 1 1 0 1, testSrc 2 1 0 1, testSrc 3 1 0 1, testSrc 4 1 0 1,
    testSrc 5 1 0 1, testSrc 6 1 0 1, testSrc 7 1 0 1, testSrc 0 1 0 1,
    testSrc 8 1 0 1, testSrc 9 1 0 1, testSrc 10 1 0 1, testSrc 11 1 0 1,
    testSrc 12 1 0 1, testSrc 13 1 0 1, testSrc 14 1 0 1], 0, 0⟩

/-- Counterexample to C3: at capacity the eviction of index 0 runs before
the merge check, so an addSource call that merges into a full pool leaves 14
sources, not 15 — a source was evicted even though the call merged. -/
theorem claim_C3_counterexample :
    stC3F.sources.length = 15 ∧
    stC3F.sources.findIdx? (spawnMatch (spawnPos layW stC3F)) = some 7 ∧
    (addSource layW [] 0 1 1 0 0 stC3F).sources.length = 14 :=
  ⟨rfl, rfl, rfl⟩

/-! ## Rotation forcing (claim C8) -/

theorem addSource_r (layout : List (ℚ × ℚ)) (pal : List RGBc)
    (colour intensity speed : ℚ) (energy : ℕ) (u : ℚ) (st : PoolState) :
    (addSource layout pal colour intensity speed energy u st).r
      = (rotate layout u st).1 := by
  cases h : (evictIfFull st.sources).findIdx? (spawnMatch (spawnPos layout st)) with
  | none => rw [addSource_insert layout pal colour intensity speed energy u st h]
  | some j => rw [addSource_merge layout pal colour intensity speed energy u st j h]

/-- Claim C8, amended: an addSource call that reaches the insertion branch
with energy at or above the threshold sets the rotation counter to
BEAT_COUNT, so the immediately following addSource call performs the
rotation: that following call still reads its own spawn position from the
current panel index before rotating, and the freshly drawn panel index is in
force only from the second following call onward. -/
theorem claim_C8_amended (layout : List (ℚ × ℚ)) (pal : List RGBc)
    (colour intensity speed : ℚ) (energy : ℕ) (u : ℚ) (st : PoolState)
    (he : ENERGY_THRESHOLD ≤ energy)
    (hins : (evictIfFull st.sources).findIdx?
        (spawnMatch (spawnPos layout st)) = none) :
    ((addSource layout pal colour intensity speed energy u st).count = BEAT_COUNT) ∧
    (∀ (c2 i2 s2 : ℚ) (e2 : ℕ) (u2 : ℚ),
      (addSource layout pal c2 i2 s2 e2 u2
          (addSource layout pal colour intensity speed energy u st)).r
        = freshIdx u2 layout.length) := by
  have h1 : (addSource layout pal colour intensity speed energy u st).count
      = BEAT_COUNT := by
    rw [addSource_insert layout pal colour intensity speed energy u st hins]
    dsimp only
    rw [if_pos he]
  refine ⟨h1, ?_⟩
  intro c2 i2 s2 e2 u2
  rw [addSource_r]
  unfold rotate
  rw [if_pos (by rw [h1]; norm_num [BEAT_COUNT])]

/-- The three-panel layout of the C8 scenario. -/
def layC8 : List (ℚ × ℚ) := [(0, 0), (50, 0), (100, 0)]

/-- The pool state after one addSource call with threshold energy against
the empty pool. -/
def st1C8 : PoolState := addSource layC8 [] 0 1 1 50000 0 initPool

/-- Counterexample to C8: the spawn position is read before the rotation
check, so the addSource call immediately following an energy-forced call
still resolves its spawn position from the very panel the forcing call used
(panel 0 at the origin), not from the freshly drawn panel (index 1 for a
rotation draw of 0.9, a different panel). -/
theorem claim_C8_counterexample :
    spawnPos layC8 st1C8 = spawnPos layC8 initPool ∧
    spawnPos layC8 initPool = (0, 0) ∧
    layC8.getD (freshIdx (9/10) layC8.length).toNat (0, 0) = (50, 0) ∧
    ((50, 0) : ℚ × ℚ) ≠ (0, 0) := by
  refine ⟨rfl, rfl, ?_, by norm_num [Prod.ext_iff]⟩
  rw [show freshIdx (9/10) layC8.length = 1 from by
    norm_num [freshIdx, layC8, ctrunc]]
  rfl

/-- Witness for C8: a threshold-energy insertion against the empty pool
forces the counter to BEAT_COUNT, and the call after the following one picks
up the fresh index (the following call itself rotates). -/
theorem claim_C8_witness :
    ENERGY_THRESHOLD ≤ 50000 ∧
    (evictIfFull initPool.sources).findIdx?
        (spawnMatch (spawnPos layC8 initPool)) = none ∧
    (addSource layC8 [] 0 1 1 50000 0 initPool).count = BEAT_COUNT ∧
    (addSource layC8 [] 0 1 1 0 (9/10)
        (addSource layC8 [] 0 1 1 50000 0 initPool)).r
      = freshIdx (9/10) layC8.length :=
  ⟨by norm_num [ENERGY_THRESHOLD], rfl,
   (claim_C8_amended layC8 [] 0 1 1 50000 0 initPool
     (by norm_num [ENERGY_THRESHOLD]) rfl).1,
   (claim_C8_amended layC8 [] 0 1 1 50000 0 initPool
     (by norm_num [ENERGY_THRESHOLD]) rfl).2 0 1 1 0 (9/10)⟩

/-! ## Render channel bounds (claim C9) -/

theorem rtrunc_eq_floor {x : ℝ} (h : 0 ≤ x) : rtrunc x = ⌊x⌋ := by
  unfold rtrunc
  rw [if_neg (not_lt.2 h)]

theorem rtrunc_nonneg {x : ℝ} (h : 0 ≤ x) : 0 ≤ rtrunc x := by
  rw [rtrunc_eq_floor h]
  exact Int.floor_nonneg.2 h

theorem rgbToHsv_V_nonneg {R G B : ℤ} (hR : 0 ≤ R) :
    0 ≤ (rgbToHsv R G B).V := by
  unfold rgbToHsv
  dsimp only
  exact le_trans hR (le_max_left _ _)

theorem rgbToHsv_S_bounds {R G B : ℤ} (hR : 0 ≤ R) (hG : 0 ≤ G) (hB : 0 ≤ B) :
    0 ≤ (rgbToHsv R G B).S ∧ (rgbToHsv R G B).S ≤ 255 := by
  unfold rgbToHsv
  dsimp only
  by_cases hV : max R (max G B) = 0
  · rw [if_pos hV]
    norm_num
  · rw [if_neg hV]
    have hV0 : 0 ≤ max R (max G B) := le_trans hR (le_max_left _ _)
    have hVpos : 0 < max R (max G B) := lt_of_le_of_ne hV0 (Ne.symm hV)
    have hm0 : 0 ≤ min R (min G B) := le_min hR (le_min hG hB)
    have hmV : min R (min G B) ≤ max R (max G B) :=
      le_trans (min_le_left _ _) (le_max_left _ _)
    constructor
    · exact Int.ediv_nonneg (by nlinarith) hV0
    · calc 255 * (max R (max G B) - min R (min G B)) / max R (max G B)
          ≤ 255 * max R (max G B) / max R (max G B) :=
            Int.ediv_le_ediv hVpos (by nlinarith)
        _ = 255 := Int.mul_ediv_cancel 255 (ne_of_gt hVpos)

theorem hsvToRgb_nonneg (h : HSVc) (hV : 0 ≤ h.V) (hS0 : 0 ≤ h.S)
    (hS1 : h.S ≤ 255) :
    0 ≤ (hsvToRgb h).1 ∧ 0 ≤ (hsvToRgb h).2.1 ∧ 0 ≤ (hsvToRgb h).2.2 := by
  unfold hsvToRgb
  dsimp only
  have hrem0 : 0 ≤ h.H % 60 := Int.emod_nonneg h.H (by norm_num)
  have hrem1 : h.H % 60 < 60 := Int.emod_lt_of_pos h.H (by norm_num)
  have hp : 0 ≤ h.V * (255 - h.S) / 255 := Int.ediv_nonneg (by nlinarith) (by norm_num)
  have h1 : h.S * (h.H % 60) ≤ 255 * 60 :=
    mul_le_mul hS1 (le_of_lt hrem1) hrem0 (by norm_num)
  have h2 : h.S * (60 - h.H % 60) ≤ 255 * 60 :=
    mul_le_mul hS1 (by omega) (by omega) (by norm_num)
  have hq : 0 ≤ h.V * (255 * 60 - h.S * (h.H % 60)) / (255 * 60) :=
    Int.ediv_nonneg (mul_nonneg hV (by omega)) (by norm_num)
  have ht : 0 ≤ h.V * (255 * 60 - h.S * (60 - h.H % 60)) / (255 * 60) :=
    Int.ediv_nonneg (mul_nonneg hV (by omega)) (by norm_num)
  split_ifs <;> exact ⟨by assumption, by assumption, by assumption⟩

theorem clamp01_bounds (x : ℝ) :
    0 ≤ (if (if 1 < x then 1 else x) < 0 then 0 else (if 1 < x then 1 else x)) ∧
    (if (if 1 < x then 1 else x) < 0 then 0 else (if 1 < x then 1 else x)) ≤ 1 := by
  by_cases h1 : 1 < x
  · rw [if_pos h1]
    norm_num
  · rw [if_neg h1]
    by_cases h2 : x < 0
    · rw [if_pos h2]
      norm_num
    · rw [if_neg h2]
      exact ⟨not_lt.1 h2, not_lt.1 h1⟩

theorem decayFactor_bounds (d : ℝ) (s : Source) (hd : 0 ≤ d)
    (hage : 0 ≤ s.diffusion_age) :
    0 ≤ decayFactor d s ∧ decayFactor d s ≤ 1 := by
  have hageR : (0 : ℝ) ≤ (s.diffusion_age : ℝ) := by exact_mod_cast hage
  have hM : ((MAX_DIFFUSION_AGE : ℚ) : ℝ) = 15 := by norm_num [MAX_DIFFUSION_AGE]
  have hK : ((FRACTION_COLOUR_TO_KEEP : ℚ) : ℝ) = 1/20 := by
    norm_num [FRACTION_COLOUR_TO_KEEP]
  unfold decayFactor
  dsimp only
  set a : ℝ := (s.diffusion_age : ℝ) with ha
  have hf₀ : 0 ≤ (if ENERGY_THRESHOLD ≤ s.energy then
        if (if 1 < 1 / ((if d * 0.015 - a * 0.2 < 0 then 0 else d * 0.015 - a * 0.2) * 2 + 1)
            then 1
            else 1 / ((if d * 0.015 - a * 0.2 < 0 then 0 else d * 0.015 - a * 0.2) * 2 + 1)) < 0
        then 0
        else (if 1 < 1 / ((if d * 0.015 - a * 0.2 < 0 then 0 else d * 0.015 - a * 0.2) * 2 + 1)
            then 1
            else 1 / ((if d * 0.015 - a * 0.2 < 0 then 0 else d * 0.015 - a * 0.2) * 2 + 1))
      else 1 / (d * 0.008 + 1)) ∧
      (if ENERGY_THRESHOLD ≤ s.energy then
        if (if 1 < 1 / ((if d * 0.015 - a * 0.2 < 0 then 0 else d * 0.015 - a * 0.2) * 2 + 1)
            then 1
            else 1 / ((if d * 0.015 - a * 0.2 < 0 then 0 else d * 0.015 - a * 0.2) * 2 + 1)) < 0
        then 0
        else (if 1 < 1 / ((if d * 0.015 - a * 0.2 < 0 then 0 else d * 0.015 - a * 0.2) * 2 + 1)
            then 1
            else 1 / ((if d * 0.015 - a * 0.2 < 0 then 0 else d * 0.015 - a * 0.2) * 2 + 1))
      else 1 / (d * 0.008 + 1)) ≤ 1 := by
    by_cases hE : ENERGY_THRESHOLD ≤ s.energy
    · rw [if_pos hE]
      exact clamp01_bounds _
    · rw [if_neg hE]
      have hden : (0 : ℝ) < d * 0.008 + 1 := by nlinarith
      constructor
      · positivity
      · rw [div_le_one hden]
        nlinarith
  set f₀ : ℝ := (if ENERGY_THRESHOLD ≤ s.energy then
        if (if 1 < 1 / ((if d * 0.015 - a * 0.2 < 0 then 0 else d * 0.015 - a * 0.2) * 2 + 1)
            then 1
            else 1 / ((if d * 0.015 - a * 0.2 < 0 then 0 else d * 0.015 - a * 0.2) * 2 + 1)) < 0
        then 0
        else (if 1 < 1 / ((if d * 0.015 - a * 0.2 < 0 then 0 else d * 0.015 - a * 0.2) * 2 + 1)
            then 1
            else 1 / ((if d * 0.015 - a * 0.2 < 0 then 0 else d * 0.015 - a * 0.2) * 2 + 1))
      else 1 / (d * 0.008 + 1)) with hf₀def
  have hf₁ : 0 ≤ (if ((MAX_DIFFUSION_AGE : ℚ) : ℝ) ≤ a then 0
        else f₀ * (1 - a / ((MAX_DIFFUSION_AGE : ℚ) : ℝ))) ∧
      (if ((MAX_DIFFUSION_AGE : ℚ) : ℝ) ≤ a then 0
        else f₀ * (1 - a / ((MAX_DIFFUSION_AGE : ℚ) : ℝ))) ≤ 1 := by
    by_cases hA : ((MAX_DIFFUSION_AGE : ℚ) : ℝ) ≤ a
    · rw [if_pos hA]
      norm_num
    · rw [if_neg hA]
      rw [hM] at hA
      have hlt' : a < 15 := not_le.1 hA
      rw [hM]
      constructor
      · apply mul_nonneg hf₀.1
        rw [sub_nonneg]
        rw [div_le_one (by norm_num : (0:ℝ) < 15)]
        linarith
      · apply mul_le_one₀ hf₀.2
        · rw [sub_nonneg, div_le_one (by norm_num : (0:ℝ) < 15)]
          linarith
        · have : 0 ≤ a / 15 := by positivity
          linarith
  set f₁ : ℝ := (if ((MAX_DIFFUSION_AGE : ℚ) : ℝ) ≤ a then 0
        else f₀ * (1 - a / ((MAX_DIFFUSION_AGE : ℚ) : ℝ))) with hf₁def
  by_cases hF : f₁ < ((FRACTION_COLOUR_TO_KEEP : ℚ) : ℝ)
  · rw [if_pos hF, hK]
    norm_num
  · rw [if_neg hF]
    exact hf₁

theorem hueShift_nonneg (d_factor R G B : ℤ) (hR : 0 ≤ R) (hG : 0 ≤ G)
    (hB : 0 ≤ B) :
    0 ≤ (hueShift d_factor R G B).1 ∧ 0 ≤ (hueShift d_factor R G B).2.1 ∧
      0 ≤ (hueShift d_factor R G B).2.2 := by
  unfold hueShift
  dsimp only
  have hV : 0 ≤ (rgbToHsv R G B).V := rgbToHsv_V_nonneg hR
  have hS := rgbToHsv_S_bounds hR hG hB
  have hV' : 0 ≤ Int.tmod ((rgbToHsv R G B).V + 10) 360 := by
    rw [Int.tmod_eq_emod (by omega) (by norm_num)]
    exact Int.emod_nonneg _ (by norm_num)
  exact hsvToRgb_nonneg ⟨Int.tmod ((rgbToHsv R G B).H + d_factor) 360,
    (rgbToHsv R G B).S, Int.tmod ((rgbToHsv R G B).V + 10) 360⟩ hV' hS.1 hS.2

theorem blendStep_nonneg (px py : ℚ) (c : ℝ × ℝ × ℝ) (s : Source)
    (hc1 : 0 ≤ c.1) (hc2 : 0 ≤ c.2.1) (hc3 : 0 ≤ c.2.2)
    (hsR : 0 ≤ s.R) (hsG : 0 ≤ s.G) (hsB : 0 ≤ s.B)
    (hage : 0 ≤ s.diffusion_age) :
    0 ≤ (blendStep px py c s).1 ∧ 0 ≤ (blendStep px py c s).2.1 ∧
      0 ≤ (blendStep px py c s).2.2 := by
  unfold blendStep
  dsimp only
  have hd : 0 ≤ distance px py s.x s.y := Real.sqrt_nonneg _
  have hf := decayFactor_bounds (distance px py s.x s.y) s hd hage
  have hblend : ∀ (x : ℝ) (v : ℤ), 0 ≤ x → 0 ≤ v →
      0 ≤ x * (1 - decayFactor (distance px py s.x s.y) s) +
        (v : ℝ) * decayFactor (distance px py s.x s.y) s := by
    intro x v hx hv
    have h1 : (0 : ℝ) ≤ (v : ℝ) := by exact_mod_cast hv
    nlinarith [hf.1, hf.2]
  have h := hueShift_nonneg (rtrunc (distance px py s.x s.y * 0.10))
    (rtrunc (c.1 * (1 - decayFactor (distance px py s.x s.y) s) +
      (s.R : ℝ) * decayFactor (distance px py s.x s.y) s))
    (rtrunc (c.2.1 * (1 - decayFactor (distance px py s.x s.y) s) +
      (s.G : ℝ) * decayFactor (distance px py s.x s.y) s))
    (rtrunc (c.2.2 * (1 - decayFactor (distance px py s.x s.y) s) +
      (s.B : ℝ) * decayFactor (distance px py s.x s.y) s))
    (rtrunc_nonneg (hblend c.1 s.R hc1 hsR))
    (rtrunc_nonneg (hblend c.2.1 s.G hc2 hsG))
    (rtrunc_nonneg (hblend c.2.2 s.B hc3 hsB))
  exact ⟨by exact_mod_cast h.1, by exact_mod_cast h.2.1, by exact_mod_cast h.2.2⟩

/-- The pool-entry invariant maintained by the public operations: channels
non-negative (they are palette channels scaled by a non-negative intensity),
age non-negative, speed non-negative. -/
def SrcOk (s : Source) : Prop :=
  0 ≤ s.R ∧ 0 ≤ s.G ∧ 0 ≤ s.B ∧ 0 ≤ s.diffusion_age ∧ 0 ≤ s.speed

theorem renderFold_nonneg (px py : ℚ) (l : List Source) (c : ℝ × ℝ × ℝ)
    (hc : 0 ≤ c.1 ∧ 0 ≤ c.2.1 ∧ 0 ≤ c.2.2)
    (hl : ∀ s ∈ l, SrcOk s) :
    0 ≤ (l.foldl (blendStep px py) c).1 ∧
      0 ≤ (l.foldl (blendStep px py) c).2.1 ∧
      0 ≤ (l.foldl (blendStep px py) c).2.2 := by
  induction l generalizing c with
  | nil => exact hc
  | cons s rest ih =>
      rw [List.foldl_cons]
      have hs := hl s (List.mem_cons_self s rest)
      refine ih _ ?_ (fun t ht => hl t (List.mem_cons_of_mem _ ht))
      exact blendStep_nonneg px py c s hc.1 hc.2.1 hc.2.2 hs.1 hs.2.1 hs.2.2.1
        hs.2.2.2.1

theorem renderPanel_bounds (px py : ℚ) (l : List Source)
    (hl : ∀ s ∈ l, SrcOk s) :
    (0 ≤ (renderPanel px py l).1 ∧ (renderPanel px py l).1 ≤ 255) ∧
    (0 ≤ (renderPanel px py l).2.1 ∧ (renderPanel px py l).2.1 ≤ 255) ∧
    (0 ≤ (renderPanel px py l).2.2 ∧ (renderPanel px py l).2.2 ≤ 255) := by
  unfold renderPanel
  dsimp only
  have h := renderFold_nonneg px py l ((0 : ℝ), (0 : ℝ), (0 : ℝ))
    ⟨le_refl 0, le_refl 0, le_refl 0⟩ hl
  refine ⟨?_, ?_, ?_⟩
  · split
    · norm_num
    · exact ⟨rtrunc_nonneg h.1, not_lt.1 (by assumption)⟩
  · split
    · norm_num
    · exact ⟨rtrunc_nonneg h.2.1, not_lt.1 (by assumption)⟩
  · split
    · norm_num
    · exact ⟨rtrunc_nonneg h.2.2, not_lt.1 (by assumption)⟩

theorem palGetD_nonneg (pal : List RGBc)
    (hpal : ∀ c ∈ pal, 0 ≤ c.R ∧ 0 ≤ c.G ∧ 0 ≤ c.B) (k : ℕ) :
    0 ≤ (pal.getD k ⟨0,0,0⟩).R ∧ 0 ≤ (pal.getD k ⟨0,0,0⟩).G ∧
      0 ≤ (pal.getD k ⟨0,0,0⟩).B := by
  by_cases hk : k < pal.length
  · rw [List.getD_eq_getElem _ _ hk]
    exact hpal _ (pal.getElem_mem hk)
  · rw [List.getD_eq_default _ _ (not_lt.1 hk)]
    norm_num

theorem getRGB_nonneg (pal : List RGBc) (colour : ℚ)
    (hpal : ∀ c ∈ pal, 0 ≤ c.R ∧ 0 ≤ c.G ∧ 0 ≤ c.B) :
    0 ≤ (getRGB pal colour).1 ∧ 0 ≤ (getRGB pal colour).2.1 ∧
      0 ≤ (getRGB pal colour).2.2 := by
  unfold getRGB
  dsimp only
  split_ifs with h1 h2 h3 h4
  · norm_num
  · exact palGetD_nonneg pal hpal 0
  · exact palGetD_nonneg pal hpal 0
  · have hc : (0 : ℚ) < colour := not_le.1 h3
    have hfrac0 : 0 ≤ colour - (ctrunc colour : ℚ) := by
      rw [ctrunc_of_nonneg hc.le]
      have := Int.floor_le colour
      linarith
    have hfrac1 : colour - (ctrunc colour : ℚ) ≤ 1 := by
      rw [ctrunc_of_nonneg hc.le]
      have := Int.lt_floor_add_one colour
      push_cast at this ⊢
      linarith
    have h1f : 0 ≤ 1 - (colour - (ctrunc colour : ℚ)) := by linarith
    have hA := palGetD_nonneg pal hpal (ctrunc colour).toNat
    have hB := palGetD_nonneg pal hpal ((ctrunc colour).toNat + 1)
    refine ⟨ctrunc_nonneg ?_, ctrunc_nonneg ?_, ctrunc_nonneg ?_⟩
    · have cA : (0 : ℚ) ≤ ((pal.getD (ctrunc colour).toNat ⟨0,0,0⟩).R : ℚ) := by
        exact_mod_cast hA.1
      have cB : (0 : ℚ) ≤ ((pal.getD ((ctrunc colour).toNat + 1) ⟨0,0,0⟩).R : ℚ) := by
        exact_mod_cast hB.1
      nlinarith
    · have cA : (0 : ℚ) ≤ ((pal.getD (ctrunc colour).toNat ⟨0,0,0⟩).G : ℚ) := by
        exact_mod_cast hA.2.1
      have cB : (0 : ℚ) ≤ ((pal.getD ((ctrunc colour).toNat + 1) ⟨0,0,0⟩).G : ℚ) := by
        exact_mod_cast hB.2.1
      nlinarith
    · have cA : (0 : ℚ) ≤ ((pal.getD (ctrunc colour).toNat ⟨0,0,0⟩).B : ℚ) := by
        exact_mod_cast hA.2.2
      have cB : (0 : ℚ) ≤ ((pal.getD ((ctrunc colour).toNat + 1) ⟨0,0,0⟩).B : ℚ) := by
        exact_mod_cast hB.2.2
      nlinarith
  · exact palGetD_nonneg pal hpal (pal.length - 1)

theorem newSource_ok (pos : ℚ × ℚ) (pal : List RGBc)
    (colour intensity speed : ℚ) (energy : ℕ)
    (hpal : ∀ c ∈ pal, 0 ≤ c.R ∧ 0 ≤ c.G ∧ 0 ≤ c.B)
    (hi : 0 ≤ intensity) (hsp : 0 ≤ speed) :
    SrcOk (newSource pos pal colour intensity speed energy) := by
  have h := getRGB_nonneg pal colour hpal
  have h1 : (0 : ℚ) ≤ ((getRGB pal colour).1 : ℚ) := by exact_mod_cast h.1
  have h2 : (0 : ℚ) ≤ ((getRGB pal colour).2.1 : ℚ) := by exact_mod_cast h.2.1
  have h3 : (0 : ℚ) ≤ ((getRGB pal colour).2.2 : ℚ) := by exact_mod_cast h.2.2
  exact ⟨ctrunc_nonneg (mul_nonneg h1 hi), ctrunc_nonneg (mul_nonneg h2 hi),
    ctrunc_nonneg (mul_nonneg h3 hi), le_refl 0, hsp⟩

theorem mem_modifyAt {a : Source} (f : Source → Source) (j : ℕ)
    (l : List Source) (ha : a ∈ modifyAt f j l) :
    a ∈ l ∨ ∃ b ∈ l, a = f b := by
  induction l generalizing j with
  | nil => simp [modifyAt] at ha
  | cons s rest ih =>
      cases j with
      | zero =>
          rcases List.mem_cons.1 ha with rfl | ha
          · exact Or.inr ⟨s, List.mem_cons_self s rest, rfl⟩
          · exact Or.inl (List.mem_cons_of_mem _ ha)
      | succ j =>
          rcases List.mem_cons.1 ha with rfl | ha
          · exact Or.inl (List.mem_cons_self _ _)
          · rcases ih j ha with h | ⟨b, hb, rfl⟩
            · exact Or.inl (List.mem_cons_of_mem _ h)
            · exact Or.inr ⟨b, List.mem_cons_of_mem _ hb, rfl⟩

theorem addSource_ok (layout : List (ℚ × ℚ)) (pal : List RGBc)
    (colour intensity speed : ℚ) (energy : ℕ) (u : ℚ) (st : PoolState)
    (hpal : ∀ c ∈ pal, 0 ≤ c.R ∧ 0 ≤ c.G ∧ 0 ≤ c.B)
    (hi : 0 ≤ intensity) (hsp : 0 ≤ speed)
    (hst : ∀ s ∈ st.sources, SrcOk s) :
    ∀ s ∈ (addSource layout pal colour intensity speed energy u st).sources,
      SrcOk s := by
  have hev : ∀ s ∈ evictIfFull st.sources, SrcOk s := by
    intro s hs
    unfold evictIfFull at hs
    split at hs
    · rw [removeSource_zero] at hs
      exact hst s (List.Sublist.mem hs (List.tail_sublist _))
    · exact hst s hs
  cases hfind : (evictIfFull st.sources).findIdx? (spawnMatch (spawnPos layout st)) with
  | some j =>
      rw [addSource_merge layout pal colour intensity speed energy u st j hfind]
      intro s hs
      dsimp only at hs
      rcases mem_modifyAt _ j _ hs with h | ⟨b, hb, rfl⟩
      · exact hev s h
      · have hbok := hev b hb
        exact ⟨hbok.1, hbok.2.1, hbok.2.2.1, le_refl 0, hsp⟩
  | none =>
      rw [addSource_insert layout pal colour intensity speed energy u st hfind]
      intro s hs
      dsimp only at hs
      unfold insertAt at hs
      rcases List.mem_append.1 hs with h | h
      · exact hev s (List.Sublist.mem h (List.take_sublist _ _))
      · rcases List.mem_cons.1 h with rfl | h
        · exact newSource_ok _ pal colour intensity speed energy hpal hi hsp
        · exact hev s (List.Sublist.mem h (List.drop_sublist _ _))

theorem diffuseSources_ok (l : List Source) (h : ∀ s ∈ l, SrcOk s) :
    ∀ s ∈ diffuseSources l, SrcOk s := by
  have haged : ∀ s ∈ l.map ageStep, SrcOk s := by
    intro s hs
    rcases List.mem_map.1 hs with ⟨t, ht, rfl⟩
    have htok := h t ht
    exact ⟨htok.1, htok.2.1, htok.2.2.1,
      add_nonneg htok.2.2.2.1 htok.2.2.2.2, htok.2.2.2.2⟩
  unfold diffuseSources
  dsimp only
  split
  · rw [pruneLoop_eq_filter]
    intro s hs
    exact haged s (List.mem_filter.1 hs).1
  · exact haged

theorem tickState_ok (layout : List (ℚ × ℚ)) (pal : List RGBc)
    (inp : Inputs) (st : OrchState)
    (hpal : ∀ c ∈ pal, 0 ≤ c.R ∧ 0 ≤ c.G ∧ 0 ≤ c.B)
    (h : ∀ s ∈ st.pool.sources, SrcOk s) :
    ∀ s ∈ (tickState layout pal inp st).pool.sources, SrcOk s := by
  have hevent : ∀ s ∈ (eventPool layout pal inp st).sources, SrcOk s := by
    unfold eventPool
    dsimp only
    split
    · exact addSource_ok _ _ _ _ _ _ _ _ hpal (by norm_num) (by norm_num) h
    · split
      · exact addSource_ok _ _ _ _ _ _ _ _ hpal (by norm_num) (by norm_num) h
      · exact h
  unfold tickState
  dsimp only
  exact diffuseSources_ok _ hevent

/-- Claim C9: the public operations preserve the pool-entry invariant SrcOk
(non-negative channels, age and speed) — the initial pool is empty, so every
reachable pool state satisfies it — and under that invariant every channel
returned by renderPanel for any panel position lies within [0, 255]: the
final clamp bounds the channels above, and no intermediate term can drive a
channel negative because every blend factor lies in [0.05, 1] and all
blended inputs are non-negative. -/
theorem claim_C9 (pal : List RGBc)
    (hpal : ∀ c ∈ pal, 0 ≤ c.R ∧ 0 ≤ c.G ∧ 0 ≤ c.B) :
    (∀ (layout : List (ℚ × ℚ)) (inp : Inputs) (st : OrchState),
      (∀ s ∈ st.pool.sources, SrcOk s) →
      ∀ s ∈ (tickState layout pal inp st).pool.sources, SrcOk s) ∧
    (∀ (px py : ℚ) (l : List Source), (∀ s ∈ l, SrcOk s) →
      (0 ≤ (renderPanel px py l).1 ∧ (renderPanel px py l).1 ≤ 255) ∧
      (0 ≤ (renderPanel px py l).2.1 ∧ (renderPanel px py l).2.1 ≤ 255) ∧
      (0 ≤ (renderPanel px py l).2.2 ∧ (renderPanel px py l).2.2 ≤ 255)) :=
  ⟨fun layout inp st h => tickState_ok layout pal inp st hpal h,
   fun px py l hl => renderPanel_bounds px py l hl⟩

/-- Witness for C9: rendering the empty pool at the origin yields channels
inside [0, 255]. -/
theorem claim_C9_witness :
    (∀ c ∈ ([] : List RGBc), 0 ≤ c.R ∧ 0 ≤ c.G ∧ 0 ≤ c.B) ∧
    (∀ s ∈ ([] : List Source), SrcOk s) ∧
    ((0 ≤ (renderPanel 0 0 []).1 ∧ (renderPanel 0 0 []).1 ≤ 255) ∧
     (0 ≤ (renderPanel 0 0 []).2.1 ∧ (renderPanel 0 0 []).2.1 ≤ 255) ∧
     (0 ≤ (renderPanel 0 0 []).2.2 ∧ (renderPanel 0 0 []).2.2 ≤ 255)) :=
  ⟨by simp, by simp,
   (claim_C9 [] (by simp)).2 0 0 [] (by simp)⟩

end EnergyDrum
